import Mathlib

/-!
Verification of the purchase-eligibility logic of
`src/Faction/ui/PurchaseableAugmentation.tsx` and of the `smoothstep`
opacity shaping of `src/ui/React/VFX.tsx`.

JavaScript numbers are modelled as rationals (`ℚ`); only finite exact
arithmetic (products of catalog constants and multipliers, threshold
comparisons) occurs in the analysed code paths, so `ℚ` is a faithful
carrier for the claims under study.  Player/catalog identifiers are
`String`s, and the owned/queued collections are lists of names (the code
only ever reads the `.name` field of their elements).
-/

namespace Bitburner

/-- A catalog entry (`Augmentation` object).  Fields are the ones the
component reads: `name`, `baseCost`, `baseRepRequirement`, `prereqs` and
the `owned` flag tested at line 135 of `PurchaseableAugmentation.tsx`. -/
structure Aug where
  name : String
  baseCost : ℚ
  baseRepRequirement : ℚ
  prereqs : List String
  owned : Bool
deriving Repr, DecidableEq

/-- The part of `faction.getInfo()` the component reads. -/
structure FactionInfo where
  augmentationPriceMult : ℚ
  augmentationRepRequirementMult : ℚ
deriving Repr, DecidableEq

/-- The part of the `Faction` object the component reads:
`getInfo()` and `playerReputation`. -/
structure Faction where
  info : FactionInfo
  playerReputation : ℚ
deriving Repr, DecidableEq

/-- The part of the player object the component reads: current money and
the names in `queuedAugmentations` and `augmentations`. -/
structure Player where
  money : ℚ
  queuedAugmentations : List String
  augmentations : List String
deriving Repr, DecidableEq

/-- `AugmentationNames.NeuroFluxGovernor`: the designated repeatable item
compared against by name at lines 135 and 160. -/
def NeuroFluxGovernor : String := "NeuroFlux Governor"

/-- `getMoneyCost()` (lines 76-78): `aug.baseCost *
props.faction.getInfo().augmentationPriceMult`. -/
def getMoneyCost (aug : Aug) (faction : Faction) : ℚ :=
  aug.baseCost * faction.info.augmentationPriceMult

/-- `getRepCost()` (lines 80-82): `aug.baseRepRequirement *
props.faction.getInfo().augmentationRepRequirementMult`. -/
def getRepCost (aug : Aug) (faction : Faction) : ℚ :=
  aug.baseRepRequirement * faction.info.augmentationRepRequirementMult

/-- Whether `name` occurs in the owned-or-queued set of the player.  Embeds the
`owned()` closure (lines 95-112): a scan of `queuedAugmentations` followed
by a scan of `augmentations`, comparing the name of each element. -/
def ownedByPlayer (augName : String) (p : Player) : Bool :=
  p.queuedAugmentations.contains augName || p.augmentations.contains augName

/-- Modelled from the spec: `hasAugmentationPrereqs` is imported from
`../FactionHelpers`, which is not among the provided sources.  Per the
spec it "computes `missingPrereqs` as the subset of `entry.prereqs` not
present in the owned-or-queued set of the player". -/
def missingPrereqs (aug : Aug) (p : Player) : List String :=
  aug.prereqs.filter (fun q => !(ownedByPlayer q p))

/-- Modelled from the spec: prerequisites are satisfied exactly when the
unmet-prerequisite subset is empty. -/
def hasAugmentationPrereqs (aug : Aug) (p : Player) : Bool :=
  (missingPrereqs aug p).isEmpty

/-- The shape of the `status` JSX element assigned in the branch at lines
128-151: `none` when `status` stays `null` (the already-owned branch),
otherwise which of the three texts was chosen. -/
inductive StatusKind where
  | noStatus
  | lockedPrereq
  | unlockedStatus
  | lockedRep
deriving Repr, DecidableEq

/-- The `color` UI property, `"primary" | "error"`. -/
inductive UiColor where
  | primary
  | error
deriving Repr, DecidableEq

/-- The decision record derived by the component body (lines 121-156)
before rendering: the computed costs, the three boolean checks, and the
`disabled` / `status` / `color` UI properties. -/
structure EvalResult where
  moneyCost : ℚ
  repCost : ℚ
  hasReq : Bool
  hasRep : Bool
  hasCost : Bool
  disabled : Bool
  status : StatusKind
  color : UiColor
deriving Repr, DecidableEq

/-- The eligibility evaluation of `PurchaseableAugmentation` (lines
121-156).  `augName` is `props.augName` (used by the ownership scan) and
`aug` the catalog entry (its `name` field is what the NeuroFlux check at
line 135 compares).  Note that `hasCost` (line 125) is true when the
player can NOT afford the entry: `aug.baseCost !== 0 && props.p.money.lt(
aug.baseCost * props.faction.getInfo().augmentationPriceMult)`. -/
def evalAug (augName : String) (aug : Aug) (faction : Faction) (p : Player) : EvalResult :=
  let moneyCost := getMoneyCost aug faction
  let repCost := getRepCost aug faction
  let hasReq := hasAugmentationPrereqs aug p
  let hasRep := decide (faction.playerReputation ≥ getRepCost aug faction)
  let hasCost := decide (aug.baseCost ≠ 0) &&
    decide (p.money < aug.baseCost * faction.info.augmentationPriceMult)
  -- lines 128-151: the if / else-if chain on hasReq, ownership, hasRep
  let branch : Bool × StatusKind × UiColor :=
    if !hasReq then
      (true, StatusKind.lockedPrereq, UiColor.error)
    else if aug.name ≠ NeuroFluxGovernor && (aug.owned || ownedByPlayer augName p) then
      (true, StatusKind.noStatus, UiColor.primary)
    else if hasRep then
      (false, StatusKind.unlockedStatus, UiColor.primary)
    else
      (true, StatusKind.lockedRep, UiColor.error)
  -- lines 153-156: if hasCost is set, force disabled and the error color
  { moneyCost := moneyCost
    repCost := repCost
    hasReq := hasReq
    hasRep := hasRep
    hasCost := hasCost
    disabled := branch.1 || hasCost
    status := branch.2.1
    color := if hasCost then UiColor.error else branch.2.2 }

/-- The `displayState` enum of the spec for `EligibilityResult`. -/
inductive DisplayState where
  | Locked
  | Unlocked
  | AlreadyOwned
deriving Repr, DecidableEq

/-- Classification of an evaluation outcome into the spec
`displayState`: the already-owned branch (lines 135-136) is the only one
that leaves `status` null; otherwise a disabled control is `Locked` and an
enabled one `Unlocked`. -/
def displayState (r : EvalResult) : DisplayState :=
  if r.status = StatusKind.noStatus then DisplayState.AlreadyOwned
  else if r.disabled then DisplayState.Locked
  else DisplayState.Unlocked

/-- Outcome of a click on the Buy button. -/
inductive ClickOutcome where
  | nothing
  | popupRaised
  | purchasedAndRerendered
deriving Repr, DecidableEq

/-- `handleClick` (lines 184-199): an early return when `disabled`;
otherwise, if `Settings.SuppressBuyAugmentationConfirmation` is unset a
confirmation popup is created, else `purchaseAugmentation` runs and the
UI rerenders.  The settings flag is passed as a parameter
(`suppressConfirmation`). -/
def handleClick (disabled : Bool) (suppressConfirmation : Bool) : ClickOutcome :=
  if disabled then ClickOutcome.nothing
  else if !suppressConfirmation then ClickOutcome.popupRaised
  else ClickOutcome.purchasedAndRerendered

/-- Whether a click outcome applied the purchase effect. -/
def purchaseApplied : ClickOutcome → Bool
  | ClickOutcome.purchasedAndRerendered => true
  | _ => false

/-- The component entry (lines 72-74): `Augmentations[props.augName]` is
looked up, and a missing entry throws
`new Error` with message `aug <name> does not exists` at line 74,
BEFORE the graceful null check at lines 114-119 (log via console.error
and return an empty element) can run: that path is unreachable.  A thrown
error is an `Except.error`; a completed render carries the decision
record. -/
def purchaseableAugmentation (catalog : String → Option Aug) (augName : String)
    (faction : Faction) (p : Player) : Except String EvalResult :=
  match catalog augName with
  | none => Except.error ("aug " ++ augName ++ " does not exists")
  | some aug => Except.ok (evalAug augName aug faction p)

/-- Whether the wrapper produced a rendered row (as opposed to throwing). -/
def rendersRow : Except String EvalResult → Bool
  | Except.ok _ => true
  | Except.error _ => false

/-! ### VFX.tsx: `clamp01`, `smoothstep` and the BlackScreen opacity -/

/-- `clamp01` (VFX.tsx lines 110-114). -/
def clamp01 (x : ℚ) : ℚ :=
  if x ≤ 0 then 0 else if x ≥ 1 then 1 else x

/-- `smoothstep` (VFX.tsx lines 116-121): scale and clamp `x` to the
`0..1` range, then apply the Hermite polynomial `x * x * (3 - 2 * x)`. -/
def smoothstep (edge0 edge1 x : ℚ) : ℚ :=
  let y := clamp01 ((x - edge0) / (edge1 - edge0))
  y * y * (3 - 2 * y)

/-- The rendered opacity of the BlackScreen overlay (VFX.tsx line 177):
`smoothstep(0, 1, opacity)` applied to the internal opacity accumulator. -/
def blackScreenOpacity (opacity : ℚ) : ℚ := smoothstep 0 1 opacity

/-! ### Helper lemmas: the three branches of the evaluator -/

theorem evalAug_moneyCost (augName : String) (aug : Aug) (f : Faction) (p : Player) :
    (evalAug augName aug f p).moneyCost = getMoneyCost aug f := rfl

theorem evalAug_repCost (augName : String) (aug : Aug) (f : Faction) (p : Player) :
    (evalAug augName aug f p).repCost = getRepCost aug f := rfl

theorem evalAug_hasReq (augName : String) (aug : Aug) (f : Faction) (p : Player) :
    (evalAug augName aug f p).hasReq = hasAugmentationPrereqs aug p := rfl

theorem evalAug_hasRep (augName : String) (aug : Aug) (f : Faction) (p : Player) :
    (evalAug augName aug f p).hasRep
      = decide (f.playerReputation ≥ getRepCost aug f) := rfl

theorem evalAug_hasCost (augName : String) (aug : Aug) (f : Faction) (p : Player) :
    (evalAug augName aug f p).hasCost
      = (decide (aug.baseCost ≠ 0)
          && decide (p.money < aug.baseCost * f.info.augmentationPriceMult)) := rfl

theorem evalAug_of_not_hasReq (augName : String) (aug : Aug) (f : Faction) (p : Player)
    (h : hasAugmentationPrereqs aug p = false) :
    (evalAug augName aug f p).disabled = true ∧
    (evalAug augName aug f p).status = StatusKind.lockedPrereq ∧
    (evalAug augName aug f p).color = UiColor.error := by
  unfold evalAug
  simp [h]

theorem evalAug_of_owned (augName : String) (aug : Aug) (f : Faction) (p : Player)
    (h : hasAugmentationPrereqs aug p = true) (hn : aug.name ≠ NeuroFluxGovernor)
    (ho : aug.owned = true ∨ ownedByPlayer augName p = true) :
    (evalAug augName aug f p).disabled = true ∧
    (evalAug augName aug f p).status = StatusKind.noStatus := by
  unfold evalAug
  rcases ho with ho | ho <;> simp [h, hn, ho]

/-- The ownership test at line 135 is false when the entry is the
repeatable item or when neither the `owned` flag nor the player
owned-or-queued set includes it. -/
theorem owned_cond_false (augName : String) (aug : Aug) (p : Player)
    (ho : aug.name = NeuroFluxGovernor ∨ (aug.owned = false ∧ ownedByPlayer augName p = false)) :
    ¬(¬aug.name = NeuroFluxGovernor ∧ (aug.owned = true ∨ ownedByPlayer augName p = true)) := by
  rcases ho with ho | ⟨h1, h2⟩
  · exact fun hcontra => hcontra.1 ho
  · rintro ⟨-, hor⟩
    rcases hor with hx | hx
    · simp [h1] at hx
    · simp [h2] at hx

theorem evalAug_of_free_rep (augName : String) (aug : Aug) (f : Faction) (p : Player)
    (h : hasAugmentationPrereqs aug p = true)
    (ho : aug.name = NeuroFluxGovernor ∨ (aug.owned = false ∧ ownedByPlayer augName p = false))
    (hr : f.playerReputation ≥ getRepCost aug f) :
    (evalAug augName aug f p).status = StatusKind.unlockedStatus ∧
    (evalAug augName aug f p).disabled = (evalAug augName aug f p).hasCost ∧
    (evalAug augName aug f p).color
      = (if (evalAug augName aug f p).hasCost then UiColor.error else UiColor.primary) := by
  have hcond := owned_cond_false augName aug p ho
  unfold evalAug
  by_cases hc : aug.baseCost ≠ 0 ∧ p.money < aug.baseCost * f.info.augmentationPriceMult <;>
    simp [h, hr, hcond, hc]

theorem evalAug_of_free_norep (augName : String) (aug : Aug) (f : Faction) (p : Player)
    (h : hasAugmentationPrereqs aug p = true)
    (ho : aug.name = NeuroFluxGovernor ∨ (aug.owned = false ∧ ownedByPlayer augName p = false))
    (hr : ¬ f.playerReputation ≥ getRepCost aug f) :
    (evalAug augName aug f p).status = StatusKind.lockedRep ∧
    (evalAug augName aug f p).disabled = true ∧
    (evalAug augName aug f p).color = UiColor.error := by
  have hcond := owned_cond_false augName aug p ho
  unfold evalAug
  by_cases hc : aug.baseCost ≠ 0 ∧ p.money < aug.baseCost * f.info.augmentationPriceMult <;>
    simp [h, hr, hcond, hc]

/-! ### Helper lemmas: `clamp01` and the Hermite polynomial -/

theorem clamp01_nonneg (x : ℚ) : 0 ≤ clamp01 x := by
  unfold clamp01
  split_ifs <;> linarith

theorem clamp01_le_one (x : ℚ) : clamp01 x ≤ 1 := by
  unfold clamp01
  split_ifs <;> linarith

theorem clamp01_mono {x y : ℚ} (h : x ≤ y) : clamp01 x ≤ clamp01 y := by
  unfold clamp01
  split_ifs <;> linarith

theorem clamp01_of_nonpos {x : ℚ} (h : x ≤ 0) : clamp01 x = 0 := by
  simp [clamp01, h]

theorem clamp01_of_one_le {x : ℚ} (h : 1 ≤ x) : clamp01 x = 1 := by
  have hx : ¬ x ≤ 0 := by linarith
  by_cases h0 : x = 1 <;> simp [clamp01, hx, h0, h]

theorem smoothstep01_eq (x : ℚ) :
    smoothstep 0 1 x = clamp01 x * clamp01 x * (3 - 2 * clamp01 x) := by
  simp [smoothstep]

theorem hermite_nonneg {y : ℚ} (h0 : 0 ≤ y) (h1 : y ≤ 1) : 0 ≤ y * y * (3 - 2 * y) :=
  mul_nonneg (mul_nonneg h0 h0) (by linarith)

theorem hermite_le_one {y : ℚ} (h0 : 0 ≤ y) (_h1 : y ≤ 1) : y * y * (3 - 2 * y) ≤ 1 := by
  nlinarith [mul_nonneg (sq_nonneg (1 - y)) (by linarith : (0 : ℚ) ≤ 1 + 2 * y)]

theorem hermite_mono {a b : ℚ} (ha : 0 ≤ a) (hab : a ≤ b) (hb : b ≤ 1) :
    a * a * (3 - 2 * a) ≤ b * b * (3 - 2 * b) := by
  have hb0 : 0 ≤ b := le_trans ha hab
  have h1 : 0 ≤ a * (1 - a) := mul_nonneg ha (by linarith)
  have h2 : 0 ≤ b * (1 - b) := mul_nonneg hb0 (by linarith)
  have h3 : 0 ≤ (a - b) * (a - b) := mul_self_nonneg _
  have key : 2 * (a * a + a * b + b * b) ≤ 3 * (a + b) := by nlinarith
  have hfac : 0 ≤ (b - a) * (3 * (a + b) - 2 * (a * a + a * b + b * b)) :=
    mul_nonneg (by linarith) (by linarith)
  nlinarith [hfac]

/-! ### Sample contexts for concrete scenarios -/

/-- A neutral faction context (both multipliers 1). -/
def sampleFaction : Faction :=
  { info := { augmentationPriceMult := 1, augmentationRepRequirementMult := 1 }
    playerReputation := 0 }

/-- A fresh player context (no money, nothing owned or queued). -/
def samplePlayer : Player :=
  { money := 0, queuedAugmentations := [], augmentations := [] }

/-! ### Claims -/

/-- C1: when the requested name has no catalog entry, evaluation is not
performed, but the wrapper does NOT render nothing: line 74 throws
`aug <name> does not exists` before the graceful branch at lines 114-119
(log a diagnostic, return an empty element) can run, so that branch is
unreachable and the failure is an exception propagated out of the
component rather than a local, non-fatal empty render. -/
theorem c1_missing_entry_throws :
    rendersRow (purchaseableAugmentation (fun _ => none) "Test" sampleFaction samplePlayer)
      = false ∧
    purchaseableAugmentation (fun _ => none) "Test" sampleFaction samplePlayer
      = Except.error "aug Test does not exists" :=
  ⟨rfl, rfl⟩

/-- C8: on a click with the control enabled, the gate checks the
skip-confirmation flag of the settings: when set, the purchase effect is
applied immediately and the UI rerendered; when unset, a confirmation
popup is raised and no purchase is applied by the click itself. -/
theorem c8_confirmation_gate :
    handleClick false true = ClickOutcome.purchasedAndRerendered ∧
    handleClick false false = ClickOutcome.popupRaised ∧
    purchaseApplied (handleClick false false) = false ∧
    (∀ o : ClickOutcome, o = ClickOutcome.nothing ∨ o = ClickOutcome.popupRaised ∨
      o = ClickOutcome.purchasedAndRerendered) := by
  refine ⟨rfl, rfl, rfl, ?_⟩
  intro o
  cases o
  · exact Or.inl rfl
  · exact Or.inr (Or.inl rfl)
  · exact Or.inr (Or.inr rfl)

/-- C10: the BlackScreen overlay opacity `smoothstep(0, 1, x)` always lies
in `[0, 1]`, is monotone non-decreasing in `x`, is `0` for `x ≤ 0` and `1`
for `x ≥ 1`; hence the rendered opacity stays in `[0, 1]` even when the
internal opacity accumulator steps past those bounds. -/
theorem c10_smoothstep_opacity (x y : ℚ) :
    (0 ≤ blackScreenOpacity x ∧ blackScreenOpacity x ≤ 1) ∧
    (x ≤ y → smoothstep 0 1 x ≤ smoothstep 0 1 y) ∧
    (x ≤ 0 → smoothstep 0 1 x = 0) ∧
    (1 ≤ x → smoothstep 0 1 x = 1) := by
  have hx0 := clamp01_nonneg x
  have hx1 := clamp01_le_one x
  refine ⟨⟨?_, ?_⟩, ?_, ?_, ?_⟩
  · rw [blackScreenOpacity, smoothstep01_eq]
    exact hermite_nonneg hx0 hx1
  · rw [blackScreenOpacity, smoothstep01_eq]
    exact hermite_le_one hx0 hx1
  · intro hxy
    rw [smoothstep01_eq, smoothstep01_eq]
    exact hermite_mono hx0 (clamp01_mono hxy) (clamp01_le_one y)
  · intro h
    rw [smoothstep01_eq, clamp01_of_nonpos h]
    ring
  · intro h
    rw [smoothstep01_eq, clamp01_of_one_le h]
    ring

/-- C10 witness: the monotonicity and endpoint clauses at concrete
inputs. -/
theorem c10_smoothstep_opacity_witness :
    smoothstep 0 1 ((0 : ℚ)) ≤ smoothstep 0 1 (2 : ℚ) ∧
    smoothstep 0 1 ((-1 : ℚ)) = 0 ∧
    smoothstep 0 1 ((2 : ℚ)) = 1 :=
  ⟨(c10_smoothstep_opacity (0 : ℚ) 2).2.1 (by decide),
   (c10_smoothstep_opacity ((-1 : ℚ)) 0).2.2.1 (by decide),
   (c10_smoothstep_opacity ((2 : ℚ)) 0).2.2.2 (by decide)⟩

/-- Catalog entry for the C2 counterexample: non-repeatable, with one
prerequisite the player does not have. -/
def c2Aug : Aug :=
  { name := "SampleAug", baseCost := 10, baseRepRequirement := 10
    prereqs := ["Prereq"], owned := false }

/-- Catalog entry for the witness of the C2 amended theorem: the same entry
without prerequisites. -/
def c2OwnedAug : Aug :=
  { name := "SampleAug", baseCost := 10, baseRepRequirement := 10
    prereqs := [], owned := false }

/-- Faction granting ample reputation for the C2 scenarios. -/
def c2Faction : Faction :=
  { info := { augmentationPriceMult := 1, augmentationRepRequirementMult := 1 }
    playerReputation := 100 }

/-- Player for the C2 scenarios: rich, and already owning `SampleAug`
but not its prerequisite. -/
def c2Player : Player :=
  { money := 1000, queuedAugmentations := [], augmentations := ["SampleAug"] }

/-- C2 counterexample: a non-repeatable entry the player already owns,
with sufficient reputation and funds but an unmet prerequisite, evaluates
to `Locked` (the prerequisite branch at line 131 runs before the
ownership branch at line 135), not `AlreadyOwned`: `AlreadyOwned` does
NOT take precedence over the prerequisite-based `Locked` state. -/
theorem c2_precedence_counterexample :
    ownedByPlayer "SampleAug" c2Player = true ∧
    c2Aug.name ≠ NeuroFluxGovernor ∧
    (evalAug "SampleAug" c2Aug c2Faction c2Player).hasRep = true ∧
    (evalAug "SampleAug" c2Aug c2Faction c2Player).hasCost = false ∧
    displayState (evalAug "SampleAug" c2Aug c2Faction c2Player) = DisplayState.Locked ∧
    displayState (evalAug "SampleAug" c2Aug c2Faction c2Player) ≠ DisplayState.AlreadyOwned := by
  have hrep : getRepCost c2Aug c2Faction = 10 := by
    norm_num [getRepCost, c2Aug, c2Faction]
  have hcost : c2Aug.baseCost * c2Faction.info.augmentationPriceMult = 10 := by
    norm_num [c2Aug, c2Faction]
  have hreq : hasAugmentationPrereqs c2Aug c2Player = false := by decide
  obtain ⟨hd, hs, _⟩ := evalAug_of_not_hasReq "SampleAug" c2Aug c2Faction c2Player hreq
  refine ⟨by decide, by decide, ?_, ?_, ?_, ?_⟩
  · rw [evalAug_hasRep, hrep]
    decide
  · rw [evalAug_hasCost, hcost]
    decide
  · simp [displayState, hs, hd]
  · simp [displayState, hs, hd]

/-- C2 (amended): for every non-repeatable entry the player already owns
or has queued WHOSE PREREQUISITES ARE SATISFIED, the evaluation yields
`displayState = AlreadyOwned` with purchase disabled, even if reputation
and funds are sufficient: `AlreadyOwned` takes precedence over the
reputation/funds-based states, but the prerequisite-based `Locked` state
takes precedence over `AlreadyOwned`. -/
theorem c2_already_owned (augName : String) (aug : Aug) (f : Faction) (p : Player)
    (hreq : hasAugmentationPrereqs aug p = true)
    (hnfg : aug.name ≠ NeuroFluxGovernor)
    (howned : ownedByPlayer augName p = true) :
    displayState (evalAug augName aug f p) = DisplayState.AlreadyOwned ∧
    (evalAug augName aug f p).disabled = true := by
  obtain ⟨hd, hs⟩ := evalAug_of_owned augName aug f p hreq hnfg (Or.inr howned)
  exact ⟨by simp [displayState, hs], hd⟩

/-- C2 witness: the amended theorem at a concrete owned entry with
satisfied prerequisites, ample reputation and ample funds. -/
theorem c2_already_owned_witness :
    hasAugmentationPrereqs c2OwnedAug c2Player = true ∧
    c2OwnedAug.name ≠ NeuroFluxGovernor ∧
    ownedByPlayer "SampleAug" c2Player = true ∧
    (displayState (evalAug "SampleAug" c2OwnedAug c2Faction c2Player)
        = DisplayState.AlreadyOwned ∧
      (evalAug "SampleAug" c2OwnedAug c2Faction c2Player).disabled = true) :=
  ⟨by decide, by decide, by decide,
    c2_already_owned "SampleAug" c2OwnedAug c2Faction c2Player
      (by decide) (by decide) (by decide)⟩

/-- C5: for every entry with a non-empty unmet-prerequisite set the
evaluation yields `Locked` with purchase disabled, error color and the
prerequisite status text; the outcome is the same for every faction
context (hence any reputation) and any money balance, so neither the
cost check nor the reputation check affects the result; and a click on
the disabled control produces no outcome. -/
theorem c5_prereq_locked (augName : String) (aug : Aug) (f : Faction) (p : Player) (skip : Bool)
    (h : missingPrereqs aug p ≠ []) :
    displayState (evalAug augName aug f p) = DisplayState.Locked ∧
    (evalAug augName aug f p).disabled = true ∧
    (evalAug augName aug f p).status = StatusKind.lockedPrereq ∧
    (evalAug augName aug f p).color = UiColor.error ∧
    (∀ (f' : Faction) (m : ℚ),
      (evalAug augName aug f' { p with money := m }).disabled = true ∧
      (evalAug augName aug f' { p with money := m }).status = StatusKind.lockedPrereq ∧
      displayState (evalAug augName aug f' { p with money := m }) = DisplayState.Locked) ∧
    handleClick (evalAug augName aug f p).disabled skip = ClickOutcome.nothing := by
  have hreq : hasAugmentationPrereqs aug p = false := by
    unfold hasAugmentationPrereqs
    cases hm : missingPrereqs aug p with
    | nil => exact absurd hm h
    | cons a l => rfl
  obtain ⟨hd, hs, hc⟩ := evalAug_of_not_hasReq augName aug f p hreq
  refine ⟨by simp [displayState, hs, hd], hd, hs, hc, ?_, by simp [handleClick, hd]⟩
  intro f' m
  have hreq' : hasAugmentationPrereqs aug { p with money := m } = false := hreq
  obtain ⟨hd', hs', _⟩ := evalAug_of_not_hasReq augName aug f' { p with money := m } hreq'
  exact ⟨hd', hs', by simp [displayState, hs', hd']⟩

/-- Catalog entry for the C5 witness: one unmet prerequisite, zero rep
requirement and zero cost (so reputation and funds are ample). -/
def c5Aug : Aug :=
  { name := "SampleAug", baseCost := 0, baseRepRequirement := 0
    prereqs := ["Missing"], owned := false }

/-- C5 witness: the theorem at a concrete entry with an unmet
prerequisite. -/
theorem c5_prereq_locked_witness :
    missingPrereqs c5Aug samplePlayer ≠ [] ∧
    (displayState (evalAug "SampleAug" c5Aug sampleFaction samplePlayer) = DisplayState.Locked ∧
      (evalAug "SampleAug" c5Aug sampleFaction samplePlayer).disabled = true ∧
      (evalAug "SampleAug" c5Aug sampleFaction samplePlayer).status = StatusKind.lockedPrereq ∧
      (evalAug "SampleAug" c5Aug sampleFaction samplePlayer).color = UiColor.error ∧
      (∀ (f' : Faction) (m : ℚ),
        (evalAug "SampleAug" c5Aug f' { samplePlayer with money := m }).disabled = true ∧
        (evalAug "SampleAug" c5Aug f' { samplePlayer with money := m }).status
          = StatusKind.lockedPrereq ∧
        displayState (evalAug "SampleAug" c5Aug f' { samplePlayer with money := m })
          = DisplayState.Locked) ∧
      handleClick (evalAug "SampleAug" c5Aug sampleFaction samplePlayer).disabled true
        = ClickOutcome.nothing) :=
  ⟨by decide, c5_prereq_locked "SampleAug" c5Aug sampleFaction samplePlayer true (by decide)⟩

/-- Catalog entry for the C6 scenario: no prerequisites,
`baseRepRequirement = 500`. -/
def c6Aug : Aug :=
  { name := "SampleAug", baseCost := 100, baseRepRequirement := 500
    prereqs := [], owned := false }

/-- Faction for the C6 scenario: `repMultiplier = 2`, player reputation
`1200`. -/
def c6Faction : Faction :=
  { info := { augmentationPriceMult := 1, augmentationRepRequirementMult := 2 }
    playerReputation := 1200 }

/-- C6: the evaluator computes `effectiveCost = baseCost × priceMult` and
`effectiveRepRequirement = baseRepRequirement × repMult`, and
`hasSufficientRep` holds exactly when the faction reputation of the player is
at least the effective requirement; in the scenario with
`baseRepRequirement = 500`, `repMultiplier = 2` and reputation `1200`,
the effective requirement is `1000` and `hasSufficientRep` is true. -/
theorem c6_effective_costs (augName : String) (aug : Aug) (f : Faction) (p : Player) :
    ((evalAug augName aug f p).moneyCost = aug.baseCost * f.info.augmentationPriceMult) ∧
    ((evalAug augName aug f p).repCost
      = aug.baseRepRequirement * f.info.augmentationRepRequirementMult) ∧
    ((evalAug augName aug f p).hasRep = true ↔
      f.playerReputation ≥ (evalAug augName aug f p).repCost) ∧
    getRepCost c6Aug c6Faction = 1000 ∧
    (evalAug "SampleAug" c6Aug c6Faction samplePlayer).repCost = 1000 ∧
    (evalAug "SampleAug" c6Aug c6Faction samplePlayer).hasRep = true := by
  have h1000 : getRepCost c6Aug c6Faction = 1000 := by
    norm_num [getRepCost, c6Aug, c6Faction]
  refine ⟨rfl, rfl, ?_, h1000, ?_, ?_⟩
  · rw [evalAug_hasRep, evalAug_repCost]
    simp [getRepCost]
  · rw [evalAug_repCost]
    exact h1000
  · rw [evalAug_hasRep, h1000]
    decide

/-- C9: the effective cost and effective reputation requirement scale
linearly in their multipliers (doubling the multiplier doubles the
value), and each is monotone in its multiplier (for the non-negative base
values the catalog uses; the spec declares negative game-balance data out
of scope). -/
theorem c9_linear_monotone (aug : Aug) (pm pm' rm rm' rep : ℚ)
    (hb : 0 ≤ aug.baseCost) (hr : 0 ≤ aug.baseRepRequirement)
    (hpm : pm ≤ pm') (hrm : rm ≤ rm') :
    getMoneyCost aug ⟨⟨2 * pm, rm⟩, rep⟩ = 2 * getMoneyCost aug ⟨⟨pm, rm⟩, rep⟩ ∧
    getRepCost aug ⟨⟨pm, 2 * rm⟩, rep⟩ = 2 * getRepCost aug ⟨⟨pm, rm⟩, rep⟩ ∧
    getMoneyCost aug ⟨⟨pm, rm⟩, rep⟩ ≤ getMoneyCost aug ⟨⟨pm', rm⟩, rep⟩ ∧
    getRepCost aug ⟨⟨pm, rm⟩, rep⟩ ≤ getRepCost aug ⟨⟨pm, rm'⟩, rep⟩ := by
  unfold getMoneyCost getRepCost
  refine ⟨by ring, by ring, ?_, ?_⟩
  · exact mul_le_mul_of_nonneg_left hpm hb
  · exact mul_le_mul_of_nonneg_left hrm hr

/-- C9 witness: the linearity and monotonicity clauses at a concrete
entry and concrete multipliers. -/
theorem c9_linear_monotone_witness :
    0 ≤ c6Aug.baseCost ∧ 0 ≤ c6Aug.baseRepRequirement ∧ ((1 : ℚ) ≤ 3) ∧ ((2 : ℚ) ≤ 5) ∧
    (getMoneyCost c6Aug ⟨⟨2 * 1, 2⟩, 0⟩ = 2 * getMoneyCost c6Aug ⟨⟨1, 2⟩, 0⟩ ∧
      getRepCost c6Aug ⟨⟨1, 2 * 2⟩, 0⟩ = 2 * getRepCost c6Aug ⟨⟨1, 2⟩, 0⟩ ∧
      getMoneyCost c6Aug ⟨⟨1, 2⟩, 0⟩ ≤ getMoneyCost c6Aug ⟨⟨3, 2⟩, 0⟩ ∧
      getRepCost c6Aug ⟨⟨1, 2⟩, 0⟩ ≤ getRepCost c6Aug ⟨⟨1, 5⟩, 0⟩) :=
  ⟨by decide, by decide, by decide, by decide,
    c9_linear_monotone c6Aug 1 3 2 5 0 (by decide) (by decide) (by decide) (by decide)⟩

/-- C3: for every entry whose prerequisites are satisfied and that is not
excluded by the ownership check, the evaluation is `Unlocked` exactly when
both the reputation check and the funds check pass; if either is missing
the result is `Locked` with purchase disabled and error color; and both
dimensions (`hasRep`, `hasCost`) are retained in the result and agree
with the reputation threshold and the funds threshold. -/
theorem c3_unlocked_iff (augName : String) (aug : Aug) (f : Faction) (p : Player)
    (hreq : hasAugmentationPrereqs aug p = true)
    (ho : aug.name = NeuroFluxGovernor ∨ (aug.owned = false ∧ ownedByPlayer augName p = false)) :
    (displayState (evalAug augName aug f p) = DisplayState.Unlocked ↔
      ((evalAug augName aug f p).hasRep = true ∧ (evalAug augName aug f p).hasCost = false)) ∧
    (¬((evalAug augName aug f p).hasRep = true ∧ (evalAug augName aug f p).hasCost = false) →
      displayState (evalAug augName aug f p) = DisplayState.Locked ∧
      (evalAug augName aug f p).disabled = true ∧
      (evalAug augName aug f p).color = UiColor.error) ∧
    ((evalAug augName aug f p).hasRep = true ↔ f.playerReputation ≥ getRepCost aug f) ∧
    ((evalAug augName aug f p).hasCost = false ↔
      ¬(aug.baseCost ≠ 0 ∧ p.money < getMoneyCost aug f)) := by
  have hrepIff : (evalAug augName aug f p).hasRep = true ↔
      f.playerReputation ≥ getRepCost aug f := by
    rw [evalAug_hasRep]
    simp
  have hcostIff : (evalAug augName aug f p).hasCost = false ↔
      ¬(aug.baseCost ≠ 0 ∧ p.money < getMoneyCost aug f) := by
    rw [evalAug_hasCost]
    simp [getMoneyCost]
  refine ⟨?_, ?_, hrepIff, hcostIff⟩
  · by_cases hr : f.playerReputation ≥ getRepCost aug f
    · obtain ⟨hs, hd, hc⟩ := evalAug_of_free_rep augName aug f p hreq ho hr
      cases hcv : (evalAug augName aug f p).hasCost
      · have hdisp : displayState (evalAug augName aug f p) = DisplayState.Unlocked := by
          simp [displayState, hs, hd, hcv]
        exact ⟨fun _ => ⟨hrepIff.mpr hr, rfl⟩, fun _ => hdisp⟩
      · have hdisp : displayState (evalAug augName aug f p) = DisplayState.Locked := by
          simp [displayState, hs, hd, hcv]
        constructor
        · intro habs
          rw [hdisp] at habs
          exact absurd habs (by decide)
        · rintro ⟨-, hfalse⟩
          exact absurd hfalse (by decide)
    · obtain ⟨hs, hd, hc⟩ := evalAug_of_free_norep augName aug f p hreq ho hr
      have hdisp : displayState (evalAug augName aug f p) = DisplayState.Locked := by
        simp [displayState, hs, hd]
      constructor
      · intro habs
        rw [hdisp] at habs
        exact absurd habs (by decide)
      · rintro ⟨hx, -⟩
        exact absurd (hrepIff.mp hx) hr
  · intro hnot
    by_cases hr : f.playerReputation ≥ getRepCost aug f
    · obtain ⟨hs, hd, hc⟩ := evalAug_of_free_rep augName aug f p hreq ho hr
      cases hcv : (evalAug augName aug f p).hasCost
      · exact absurd ⟨hrepIff.mpr hr, hcv⟩ hnot
      · refine ⟨by simp [displayState, hs, hd, hcv], ?_, ?_⟩
        · rw [hd]
          exact hcv
        · rw [hc, hcv]
          simp
    · obtain ⟨hs, hd, hc⟩ := evalAug_of_free_norep augName aug f p hreq ho hr
      exact ⟨by simp [displayState, hs, hd], hd, hc⟩

/-- C3 witness: the theorem at a concrete unowned entry with satisfied
prerequisites. -/
theorem c3_unlocked_iff_witness :
    hasAugmentationPrereqs c6Aug samplePlayer = true ∧
    (c6Aug.name = NeuroFluxGovernor ∨
      (c6Aug.owned = false ∧ ownedByPlayer "SampleAug" samplePlayer = false)) ∧
    ((displayState (evalAug "SampleAug" c6Aug c6Faction samplePlayer) = DisplayState.Unlocked ↔
      ((evalAug "SampleAug" c6Aug c6Faction samplePlayer).hasRep = true ∧
        (evalAug "SampleAug" c6Aug c6Faction samplePlayer).hasCost = false)) ∧
    (¬((evalAug "SampleAug" c6Aug c6Faction samplePlayer).hasRep = true ∧
        (evalAug "SampleAug" c6Aug c6Faction samplePlayer).hasCost = false) →
      displayState (evalAug "SampleAug" c6Aug c6Faction samplePlayer) = DisplayState.Locked ∧
      (evalAug "SampleAug" c6Aug c6Faction samplePlayer).disabled = true ∧
      (evalAug "SampleAug" c6Aug c6Faction samplePlayer).color = UiColor.error) ∧
    ((evalAug "SampleAug" c6Aug c6Faction samplePlayer).hasRep = true ↔
      c6Faction.playerReputation ≥ getRepCost c6Aug c6Faction) ∧
    ((evalAug "SampleAug" c6Aug c6Faction samplePlayer).hasCost = false ↔
      ¬(c6Aug.baseCost ≠ 0 ∧ samplePlayer.money < getMoneyCost c6Aug c6Faction))) :=
  ⟨by decide, by decide,
    c3_unlocked_iff "SampleAug" c6Aug c6Faction samplePlayer (by decide) (by decide)⟩

/-- Catalog entry for the C4 scenario: `baseCost = 1000`, no
prerequisites. -/
def c4Aug : Aug :=
  { name := "SampleAug", baseCost := 1000, baseRepRequirement := 0
    prereqs := [], owned := false }

/-- Faction for the C4 scenario: `priceMultiplier = 1.5`. -/
def c4Faction : Faction :=
  { info := { augmentationPriceMult := 3/2, augmentationRepRequirementMult := 1 }
    playerReputation := 0 }

/-- Player for the C4 scenario: money `1400`. -/
def c4Player : Player :=
  { money := 1400, queuedAugmentations := [], augmentations := [] }

/-- C4: for a player whose balance is non-negative (the only balances the
game produces; the spec declares invalid numeric state out of scope),
funds are sufficient (`hasCost = false`) exactly when it is NOT the case
that the effective cost is positive and the money of the player is below it;
in the scenario `baseCost = 1000`, `priceMultiplier = 1.5`, money `1400`,
the effective cost is `1500` and funds are insufficient. -/
theorem c4_sufficient_funds (augName : String) (aug : Aug) (f : Faction) (p : Player)
    (hm : 0 ≤ p.money) :
    ((evalAug augName aug f p).hasCost = false ↔
      ¬(0 < getMoneyCost aug f ∧ p.money < getMoneyCost aug f)) ∧
    getMoneyCost c4Aug c4Faction = 1500 ∧
    (evalAug "SampleAug" c4Aug c4Faction c4Player).moneyCost = 1500 ∧
    (evalAug "SampleAug" c4Aug c4Faction c4Player).hasCost = true := by
  have h1500 : getMoneyCost c4Aug c4Faction = 1500 := by
    norm_num [getMoneyCost, c4Aug, c4Faction]
  refine ⟨?_, h1500, ?_, ?_⟩
  · rw [evalAug_hasCost]
    by_cases hb : aug.baseCost = 0
    · simp [getMoneyCost, hb]
    · by_cases hlt : p.money < aug.baseCost * f.info.augmentationPriceMult
      · simp [getMoneyCost, hb, hlt]
        exact lt_of_le_of_lt hm hlt
      · simp [getMoneyCost, hb, hlt]
  · rw [evalAug_moneyCost]
    exact h1500
  · rw [evalAug_hasCost]
    have hprod : c4Aug.baseCost * c4Faction.info.augmentationPriceMult = 1500 := by
      norm_num [c4Aug, c4Faction]
    rw [hprod]
    decide

/-- C4 witness: the theorem at the inputs of the scenario itself. -/
theorem c4_sufficient_funds_witness :
    0 ≤ c4Player.money ∧
    (((evalAug "SampleAug" c4Aug c4Faction c4Player).hasCost = false ↔
      ¬(0 < getMoneyCost c4Aug c4Faction ∧ c4Player.money < getMoneyCost c4Aug c4Faction)) ∧
    getMoneyCost c4Aug c4Faction = 1500 ∧
    (evalAug "SampleAug" c4Aug c4Faction c4Player).moneyCost = 1500 ∧
    (evalAug "SampleAug" c4Aug c4Faction c4Player).hasCost = true) :=
  ⟨by decide, c4_sufficient_funds "SampleAug" c4Aug c4Faction c4Player (by decide)⟩

/-- C7: for the designated repeatable item (name equal to
`NeuroFluxGovernor`) the evaluation never takes the already-owned branch:
the status is never the null one and `displayState` is never
`AlreadyOwned`; with prerequisites satisfied, the control is enabled
exactly when the reputation and funds checks pass; and the result is
entirely independent of ownership — any player with the same money and
the same unmet-prerequisite set (owned or not) gets the identical
result. -/
theorem c7_neuroflux_no_short_circuit (augName : String) (aug : Aug) (f : Faction) (p : Player)
    (hnfg : aug.name = NeuroFluxGovernor) :
    (evalAug augName aug f p).status ≠ StatusKind.noStatus ∧
    displayState (evalAug augName aug f p) ≠ DisplayState.AlreadyOwned ∧
    (hasAugmentationPrereqs aug p = true →
      ((evalAug augName aug f p).disabled = false ↔
        ((evalAug augName aug f p).hasRep = true ∧ (evalAug augName aug f p).hasCost = false))) ∧
    (∀ (p' : Player), p'.money = p.money → missingPrereqs aug p' = missingPrereqs aug p →
      evalAug augName aug f p' = evalAug augName aug f p) := by
  have hstat : (evalAug augName aug f p).status ≠ StatusKind.noStatus := by
    by_cases hreq : hasAugmentationPrereqs aug p = true
    · by_cases hr : f.playerReputation ≥ getRepCost aug f
      · obtain ⟨hs, -, -⟩ := evalAug_of_free_rep augName aug f p hreq (Or.inl hnfg) hr
        rw [hs]
        decide
      · obtain ⟨hs, -, -⟩ := evalAug_of_free_norep augName aug f p hreq (Or.inl hnfg) hr
        rw [hs]
        decide
    · have hreq' : hasAugmentationPrereqs aug p = false := by
        cases hx : hasAugmentationPrereqs aug p
        · rfl
        · exact absurd hx hreq
      obtain ⟨-, hs, -⟩ := evalAug_of_not_hasReq augName aug f p hreq'
      rw [hs]
      decide
  refine ⟨hstat, ?_, ?_, ?_⟩
  · rw [displayState, if_neg hstat]
    split <;> decide
  · intro hreq
    by_cases hr : f.playerReputation ≥ getRepCost aug f
    · obtain ⟨-, hd, -⟩ := evalAug_of_free_rep augName aug f p hreq (Or.inl hnfg) hr
      have hrept : (evalAug augName aug f p).hasRep = true := by
        rw [evalAug_hasRep]
        simp [hr]
      cases hcv : (evalAug augName aug f p).hasCost
      · constructor
        · intro _
          exact ⟨hrept, rfl⟩
        · intro _
          rw [hd, hcv]
      · constructor
        · intro hds
          rw [hd, hcv] at hds
          exact absurd hds (by decide)
        · rintro ⟨-, hfalse⟩
          exact absurd hfalse (by decide)
    · obtain ⟨-, hd, -⟩ := evalAug_of_free_norep augName aug f p hreq (Or.inl hnfg) hr
      have hrepf : (evalAug augName aug f p).hasRep = false := by
        rw [evalAug_hasRep]
        simp [hr]
      constructor
      · intro hds
        rw [hd] at hds
        exact absurd hds (by decide)
      · rintro ⟨hx, -⟩
        rw [hrepf] at hx
        exact absurd hx (by decide)
  · intro p' hm hpre
    unfold evalAug hasAugmentationPrereqs
    rw [hpre, hm]
    simp [hnfg]

/-- The repeatable entry for the C7 witness. -/
def c7Aug : Aug :=
  { name := "NeuroFlux Governor", baseCost := 100, baseRepRequirement := 100
    prereqs := [], owned := false }

/-- Player for the C7 witness: already queued the repeatable entry. -/
def c7Player : Player :=
  { money := 5000, queuedAugmentations := ["NeuroFlux Governor"], augmentations := [] }

/-- A player identical to the C7 witness player except that nothing is
owned or queued. -/
def c7PlayerFresh : Player :=
  { money := 5000, queuedAugmentations := [], augmentations := [] }

/-- C7 witness: the theorem at a concrete owned repeatable entry. -/
theorem c7_neuroflux_no_short_circuit_witness :
    c7Aug.name = NeuroFluxGovernor ∧
    hasAugmentationPrereqs c7Aug c7Player = true ∧
    c7PlayerFresh.money = c7Player.money ∧
    missingPrereqs c7Aug c7PlayerFresh = missingPrereqs c7Aug c7Player ∧
    ((evalAug "NeuroFlux Governor" c7Aug c2Faction c7Player).status ≠ StatusKind.noStatus ∧
      displayState (evalAug "NeuroFlux Governor" c7Aug c2Faction c7Player)
        ≠ DisplayState.AlreadyOwned ∧
      ((evalAug "NeuroFlux Governor" c7Aug c2Faction c7Player).disabled = false ↔
        ((evalAug "NeuroFlux Governor" c7Aug c2Faction c7Player).hasRep = true ∧
          (evalAug "NeuroFlux Governor" c7Aug c2Faction c7Player).hasCost = false)) ∧
      evalAug "NeuroFlux Governor" c7Aug c2Faction c7PlayerFresh
        = evalAug "NeuroFlux Governor" c7Aug c2Faction c7Player) :=
  ⟨by decide, by decide, by decide, by decide,
    (fun t => ⟨t.1, t.2.1, t.2.2.1 (by decide), t.2.2.2 c7PlayerFresh (by decide) (by decide)⟩)
      (c7_neuroflux_no_short_circuit "NeuroFlux Governor" c7Aug c2Faction c7Player (by decide))⟩

end Bitburner
